import Mathlib

/-!
Shallow embedding of the SMAP2 grading core (`src/utils.ts`) together with
proofs about it.  JavaScript numbers are modelled as rationals, JS
`Math.round` as `⌊x + 1/2⌋`, JS object maps as functions into `Option`,
and the JS falsiness of `""`, `0` and `undefined` is made explicit in the
defaulting helpers below.
-/

namespace SMAP

/-- JS `Math.round`: round to the nearest integer, halves toward `+∞`. -/
def jround (q : ℚ) : ℤ := ⌊q + 1/2⌋

/-- JS `x || 0` for an optional numeric field: `undefined` gives `0`, and a
present value `0` also gives `0`, so this is exactly `Option.getD 0`. -/
def jsNum (o : Option ℚ) : ℚ := o.getD 0

/-- JS `s || d` for an optional string field: `undefined` and `""` are falsy. -/
def jsStr (o : Option String) (d : String) : String :=
  match o with
  | none => d
  | some s => if s = "" then d else s

/-- JS `String.prototype.trim`, modelled structurally over the character
list (drop whitespace from both ends) so that it evaluates by reduction. -/
def jsTrim (s : String) : String :=
  ⟨((s.data.dropWhile Char.isWhitespace).reverse.dropWhile
    Char.isWhitespace).reverse⟩

/-- The nine standards-referenced grade bands returned by
`getGradeFromZScore` in `src/utils.ts`. -/
inductive Grade where
  | A1 | B2 | B3 | C4 | C5 | C6 | D7 | E8 | F9
deriving DecidableEq, Repr

/-- The record `{ grade, value, category }` returned by `getGradeFromZScore`. -/
structure GradeResult where
  grade : Grade
  value : ℕ
  category : String
deriving Repr

/-- `getGradeFromZScore` from `src/utils.ts` (lines 35-49). -/
def getGradeFromZScore (score mean stdDev : ℚ)
    (remarksMap : String → Option String) : GradeResult :=
  if stdDev = 0 then ⟨.C4, 4, jsStr (remarksMap "C4") "Credit"⟩
  else
    let diff := score - mean
    if diff ≥ 1.645 * stdDev then ⟨.A1, 1, jsStr (remarksMap "A1") "Excellent"⟩
    else if diff ≥ 1.036 * stdDev then ⟨.B2, 2, jsStr (remarksMap "B2") "Very Good"⟩
    else if diff ≥ 0.524 * stdDev then ⟨.B3, 3, jsStr (remarksMap "B3") "Good"⟩
    else if diff ≥ 0 then ⟨.C4, 4, jsStr (remarksMap "C4") "Credit"⟩
    else if diff ≥ -0.524 * stdDev then ⟨.C5, 5, jsStr (remarksMap "C5") "Credit"⟩
    else if diff ≥ -1.036 * stdDev then ⟨.C6, 6, jsStr (remarksMap "C6") "Credit"⟩
    else if diff ≥ -1.645 * stdDev then ⟨.D7, 7, jsStr (remarksMap "D7") "Pass"⟩
    else if diff ≥ -2.326 * stdDev then ⟨.E8, 8, jsStr (remarksMap "E8") "Pass"⟩
    else ⟨.F9, 9, jsStr (remarksMap "F9") "Fail"⟩

/-- The grade-band classification exactly as the specification words it:
`C4`/4 at zero standard deviation, otherwise the first matching cutoff on
`diff = score - mean`, in the stated order. -/
def zScoreBandSpec (score mean stdDev : ℚ) : Grade × ℕ :=
  if stdDev = 0 then (.C4, 4)
  else
    let diff := score - mean
    if diff ≥ 1.645 * stdDev then (.A1, 1)
    else if diff ≥ 1.036 * stdDev then (.B2, 2)
    else if diff ≥ 0.524 * stdDev then (.B3, 3)
    else if diff ≥ 0 then (.C4, 4)
    else if diff ≥ -0.524 * stdDev then (.C5, 5)
    else if diff ≥ -1.036 * stdDev then (.C6, 6)
    else if diff ≥ -1.645 * stdDev then (.D7, 7)
    else if diff ≥ -2.326 * stdDev then (.E8, 8)
    else (.F9, 9)

set_option maxHeartbeats 1000000 in
/-- C1: for every score, mean, stdDev and remark map, `getGradeFromZScore`
returns `C4`/4 when `stdDev = 0`, and otherwise the grade/value of the first
matching cutoff on `diff = score - mean` in the stated band order. -/
theorem getGradeFromZScore_bands (score mean stdDev : ℚ)
    (remarksMap : String → Option String) :
    ((getGradeFromZScore score mean stdDev remarksMap).grade,
     (getGradeFromZScore score mean stdDev remarksMap).value) =
      zScoreBandSpec score mean stdDev := by
  unfold getGradeFromZScore zScoreBandSpec
  dsimp only
  split_ifs <;> rfl

/-- The band value of a first-match cutoff chain: returns `k` at the first
threshold `t` with `d ≥ t`, incrementing `k` down the chain. -/
def chainValue (d : ℚ) : List ℚ → ℕ → ℕ
  | [], k => k
  | t :: ts, k => if d ≥ t then k else chainValue d ts (k + 1)

/-- The eight z-score cutoffs of `getGradeFromZScore`, in band order. -/
def zCutoffs (stdDev : ℚ) : List ℚ :=
  [1.645 * stdDev, 1.036 * stdDev, 0.524 * stdDev, 0,
   -0.524 * stdDev, -1.036 * stdDev, -1.645 * stdDev, -2.326 * stdDev]

theorem le_chainValue (d : ℚ) (ts : List ℚ) (k : ℕ) : k ≤ chainValue d ts k := by
  induction ts generalizing k with
  | nil => simp [chainValue]
  | cons t ts ih =>
    simp only [chainValue]
    split
    · exact Nat.le_refl k
    · exact Nat.le_trans (Nat.le_succ k) (ih (k + 1))

theorem chainValue_antitone (d₁ d₂ : ℚ) (hd : d₂ ≤ d₁) (ts : List ℚ) (k : ℕ) :
    chainValue d₁ ts k ≤ chainValue d₂ ts k := by
  induction ts generalizing k with
  | nil => exact Nat.le_refl k
  | cons t ts ih =>
    simp only [chainValue]
    split
    · split
      · exact Nat.le_refl k
      · exact Nat.le_trans (Nat.le_succ k) (le_chainValue d₂ ts (k + 1))
    · rename_i h1
      split
      · rename_i h2
        exact absurd (le_trans h2 hd) h1
      · exact ih (k + 1)

set_option maxHeartbeats 1000000 in
theorem value_eq_chain (score mean stdDev : ℚ) (remarksMap : String → Option String) :
    (getGradeFromZScore score mean stdDev remarksMap).value =
      if stdDev = 0 then 4 else chainValue (score - mean) (zCutoffs stdDev) 1 := by
  unfold getGradeFromZScore zCutoffs
  dsimp only
  simp only [chainValue]
  split_ifs <;> rfl

/-- C8: with positive standard deviation, the grade value never improves as
the z-score `(score - mean)/stdDev` decreases. -/
theorem getGradeFromZScore_value_antitone (score₁ score₂ mean stdDev : ℚ)
    (remarksMap : String → Option String) (hσ : 0 < stdDev)
    (hz : (score₂ - mean) / stdDev ≤ (score₁ - mean) / stdDev) :
    (getGradeFromZScore score₁ mean stdDev remarksMap).value ≤
      (getGradeFromZScore score₂ mean stdDev remarksMap).value := by
  have hd : score₂ - mean ≤ score₁ - mean :=
    (div_le_div_iff_of_pos_right hσ).mp hz
  rw [value_eq_chain, value_eq_chain, if_neg hσ.ne', if_neg hσ.ne']
  exact chainValue_antitone _ _ hd _ 1

/-- The `{sectionA, sectionB}` Science score breakdown (`scoreDetails` entry). -/
structure ScoreDetail where
  sectionA : ℚ
  sectionB : ℚ

/-- A staff roster entry (`StaffMember`): the `subjects` set is optional. -/
structure StaffMember where
  name : String
  subjects : Option (List String)

/-- An input student record (`StudentData`): JS object maps are modelled as
functions into `Option`, optional text fields as `Option String`. -/
structure StudentData where
  id : ℤ
  name : String
  scores : String → Option ℚ
  scoreDetails : String → Option ScoreDetail
  subjectRemarks : Option (List (String × String))
  finalRemark : Option String
  overallRemark : Option String
  recommendation : Option String
  attendance : Option String
  age : String
  promotedTo : String
  conduct : String
  interest : String
  skills : String

/-- `ClassStatistics`: the per-subject mean and standard-deviation maps. -/
structure ClassStatistics where
  subjectMeans : String → ℚ
  subjectStdDevs : String → ℚ

/-- The contributing score of one student for one subject inside
`calculateClassStatistics` (`src/utils.ts` lines 56-70): for Science with a
detailed breakdown the score is derived from `sectionA + sectionB`
(normalized to 100 points when `scienceBaseScore` is 140), otherwise the
flat score, defaulting to 0. -/
def calculateClassStatisticsScore (scienceBaseScore : ℚ) (subject : String)
    (s : StudentData) : ℚ :=
  if subject = "Science" then
    match s.scoreDetails "Science" with
    | some det =>
        let rawSum := det.sectionA + det.sectionB
        if scienceBaseScore = 140 then ((jround (rawSum / 140 * 100) : ℤ) : ℚ)
        else ((jround rawSum : ℤ) : ℚ)
    | none => jsNum (s.scores subject)
  else jsNum (s.scores subject)

/-- The `scores` array built for one subject inside `calculateClassStatistics`;
its mean and standard deviation become that subject's class statistics. -/
def calculateClassStatisticsScores (scienceBaseScore : ℚ)
    (students : List StudentData) (subject : String) : List ℚ :=
  students.map (calculateClassStatisticsScore scienceBaseScore subject)

/-- The contributing score of one subject inside `processStudentData`
(`src/utils.ts` lines 95-106). -/
def processStudentScore (scienceBaseScore : ℚ) (subject : String)
    (student : StudentData) : ℚ :=
  let score := jsNum (student.scores subject)
  if subject = "Science" then
    match student.scoreDetails "Science" with
    | some det =>
        let rawSum := det.sectionA + det.sectionB
        if scienceBaseScore = 140 then ((jround (rawSum / 140 * 100) : ℤ) : ℚ)
        else ((jround rawSum : ℤ) : ℚ)
    | none => score
  else score

/-- The Science-normalization rule exactly as the specification words it. -/
def contributingScoreSpec (scienceBaseScore : ℚ) (subject : String)
    (s : StudentData) : ℚ :=
  if subject = "Science" then
    match s.scoreDetails "Science" with
    | some det =>
        if scienceBaseScore = 140 then
          ((jround ((det.sectionA + det.sectionB) / 140 * 100) : ℤ) : ℚ)
        else ((jround (det.sectionA + det.sectionB) : ℤ) : ℚ)
    | none => (s.scores subject).getD 0
  else (s.scores subject).getD 0

/-- C2: the statistics pass and the per-student pass resolve the identical
contributing score for every student, subject and `scienceBaseScore`, and
that common value is the specification's Science-normalization rule. -/
theorem class_statistics_score_eq_process_score (scienceBaseScore : ℚ)
    (subject : String) (s : StudentData) :
    calculateClassStatisticsScore scienceBaseScore subject s =
        processStudentScore scienceBaseScore subject s ∧
      processStudentScore scienceBaseScore subject s =
        contributingScoreSpec scienceBaseScore subject s := by
  unfold calculateClassStatisticsScore processStudentScore contributingScoreSpec
  exact ⟨rfl, rfl⟩

/-- `generateSubjectRemark` from `src/utils.ts` (lines 24-33). -/
def generateSubjectRemark (score : ℚ) : String :=
  if score ≥ 90 then "Outstanding mastery of subject concepts."
  else if score ≥ 80 then "Excellent performance, shows great potential."
  else if score ≥ 70 then "Very Good. Consistent effort displayed."
  else if score ≥ 60 then "Good. Capable of achieving higher grades."
  else if score ≥ 55 then "Credit. Satisfactory understanding shown."
  else if score ≥ 50 then "Pass. Needs more dedication to studies."
  else if score ≥ 40 then "Weak Pass. Remedial support recommended."
  else "Critical Failure. Immediate intervention required."

/-- A computed per-subject result (`ComputedSubject`). -/
structure ComputedSubject where
  subject : String
  score : ℚ
  grade : Grade
  gradeValue : ℕ
  remark : String
  facilitator : String
  zScore : ℚ

/-- A fully processed student (`ProcessedStudent`). -/
structure ProcessedStudent where
  id : ℤ
  name : String
  subjects : List ComputedSubject
  totalScore : ℚ
  bestSixAggregate : ℕ
  bestCoreSubjects : List ComputedSubject
  bestElectiveSubjects : List ComputedSubject
  overallRemark : String
  recommendation : String
  weaknessAnalysis : String
  category : String
  rank : ℕ
  attendance : String
  age : String
  promotedTo : String
  conduct : String
  interest : String
  skills : String

/-- The per-subject body of the `subjectList.forEach` loop in
`processStudentData` (`src/utils.ts` lines 94-127). -/
def computeSubject (stats : ClassStatistics)
    (facilitatorMap : String → Option String)
    (gradingRemarks : String → Option String) (staffList : List StaffMember)
    (scienceBaseScore : ℚ) (student : StudentData)
    (subject : String) : ComputedSubject :=
  let score := processStudentScore scienceBaseScore subject student
  let mean := stats.subjectMeans subject
  let stdDev := stats.subjectStdDevs subject
  let res := getGradeFromZScore score mean stdDev gradingRemarks
  let staff := staffList.find? (fun s =>
    match s.subjects with
    | some subs => subs.contains subject
    | none => false)
  let facilitatorName :=
    match staff with
    | some st => st.name
    | none => jsStr (facilitatorMap subject) "TBA"
  { subject := subject
    score := score
    grade := res.grade
    gradeValue := res.value
    remark := generateSubjectRemark score
    facilitator := facilitatorName
    zScore := if stdDev = 0 then 0 else (score - mean) / stdDev }

/-- The tie-breaking comparator `sortFn` (`src/utils.ts` lines 132-135) as
the total boolean relation "sorts at or before": ascending `gradeValue`,
ties broken by descending `score`. -/
def subjLE (a b : ComputedSubject) : Bool :=
  if a.gradeValue ≠ b.gradeValue then decide (a.gradeValue < b.gradeValue)
  else decide (b.score ≤ a.score)

/-- The truthiness test `student.finalRemark && student.finalRemark.trim()
!== ""` (`src/utils.ts` line 156). -/
def finalRemarkSet (student : StudentData) : Bool :=
  match student.finalRemark with
  | none => false
  | some fr => decide (fr ≠ "") && decide (jsTrim fr ≠ "")

/-- The weakness note built from every subject with `gradeValue >= 7`
(`src/utils.ts` lines 158-162 and 164-169). -/
def weaknessNote (computedSubjects : List ComputedSubject) : String :=
  "Needs urgent improvement in: " ++
    String.intercalate ", "
      ((computedSubjects.filter (fun s => decide (s.gradeValue ≥ 7))).map (·.subject)) ++
    "."

/-- The remark-assembly block of `processStudentData` (`src/utils.ts` lines
153-186), returning `(combinedOverallRemark, weaknessAnalysis)`. -/
def remarkPair (category : String) (bestSixAggregate : ℕ)
    (computedSubjects : List ComputedSubject) (student : StudentData) :
    String × String :=
  let weakSubjects := computedSubjects.filter (fun s => decide (s.gradeValue ≥ 7))
  if finalRemarkSet student then
    (student.finalRemark.getD "",
     if weakSubjects.length > 0 then weaknessNote computedSubjects else "")
  else
    let sortedByScoreAsc := computedSubjects.mergeSort (fun a b => decide (a.score ≤ b.score))
    let weaknessAnalysis :=
      if weakSubjects.length > 0 then weaknessNote computedSubjects
      else "Lowest performance in " ++ jsStr (sortedByScoreAsc.head?.map (·.subject)) "N/A" ++ "."
    let facilitatorRemarksList :=
      (match student.subjectRemarks with
        | some entries =>
            entries.filter (fun p : String × String =>
              decide (p.2 ≠ "") && decide (jsTrim p.2 ≠ ""))
        | none => ([] : List (String × String))).map
        (fun p : String × String => p.1 ++ ": " ++ p.2)
    let facilitatorRemarksStr :=
      if facilitatorRemarksList.length > 0 then
        " [Facilitator Notes: " ++ String.intercalate "; " facilitatorRemarksList ++ "]"
      else ""
    let generatedPerformanceSummary :=
      "Overall performance is " ++ category ++ ". " ++
        (if bestSixAggregate ≤ 15 then "Keep up the excellent work!"
         else "More effort required to improve aggregate.")
    let classTeacherRemark := jsStr student.overallRemark generatedPerformanceSummary
    (weaknessAnalysis ++ facilitatorRemarksStr ++ "\n\n" ++ classTeacherRemark,
     weaknessAnalysis)

/-- The category bands of `processStudentData` (`src/utils.ts` lines
147-151); the initial `"Average"` placeholder is overwritten on every path. -/
def categoryOf (bestSixAggregate : ℕ) : String :=
  if bestSixAggregate ≤ 10 then "Distinction"
  else if bestSixAggregate ≤ 20 then "Merit"
  else if bestSixAggregate ≤ 36 then "Pass"
  else "Fail"

/-- The per-student body of `processStudentData` (`src/utils.ts` lines
90-210), producing an unranked `ProcessedStudent` (`rank` = 0).  The stable
in-place `Array.prototype.sort` is modelled by `List.mergeSort`.
`coreSubjects` stands for the `CORE_SUBJECTS` constant imported from the
(absent) `constants.ts`, passed explicitly. -/
def processOneStudent (coreSubjects : List String) (stats : ClassStatistics)
    (facilitatorMap : String → Option String) (subjectList : List String)
    (gradingRemarks : String → Option String) (staffList : List StaffMember)
    (scienceBaseScore : ℚ) (student : StudentData) : ProcessedStudent :=
  let computedSubjects := subjectList.map
    (computeSubject stats facilitatorMap gradingRemarks staffList scienceBaseScore student)
  let studentTotalNormalizedScore := (computedSubjects.map (·.score)).sum
  let cores := computedSubjects.filter (fun s => coreSubjects.contains s.subject)
  let electives := computedSubjects.filter (fun s => !coreSubjects.contains s.subject)
  let best4Cores := (cores.mergeSort subjLE).take 4
  let best2Electives := (electives.mergeSort subjLE).take 2
  let bestSixAggregate :=
    (best4Cores.map (·.gradeValue)).sum + (best2Electives.map (·.gradeValue)).sum
  let category := categoryOf bestSixAggregate
  let remarks := remarkPair category bestSixAggregate computedSubjects student
  { id := student.id
    name := student.name
    subjects := computedSubjects
    totalScore := studentTotalNormalizedScore
    bestSixAggregate := bestSixAggregate
    bestCoreSubjects := best4Cores
    bestElectiveSubjects := best2Electives
    overallRemark := remarks.1
    recommendation := jsStr student.recommendation
      "Encouraged to maintain focus on core subjects. Recommended to attend extra classes for weak areas identified above. Parents are advised to supervise evening studies."
    weaknessAnalysis := remarks.2
    category := category
    rank := 0
    attendance := jsStr student.attendance "0"
    age := student.age
    promotedTo := student.promotedTo
    conduct := student.conduct
    interest := student.interest
    skills := student.skills }

/-- The ranking comparator of `processStudentData` (`src/utils.ts` lines
212-215): ascending `bestSixAggregate`, ties broken by descending
`totalScore`. -/
def rankLE (a b : ProcessedStudent) : Bool :=
  if a.bestSixAggregate ≠ b.bestSixAggregate then
    decide (a.bestSixAggregate < b.bestSixAggregate)
  else decide (b.totalScore ≤ a.totalScore)

/-- `processStudentData` (`src/utils.ts` lines 81-222): process every
student, stably sort by `rankLE`, then assign 1-based ranks in order.
Parameters follow the source except that `coreSubjects` (the external
`CORE_SUBJECTS` constant) is explicit and `students` comes last. -/
def processStudentData (coreSubjects : List String) (stats : ClassStatistics)
    (facilitatorMap : String → Option String) (subjectList : List String)
    (gradingRemarks : String → Option String) (staffList : List StaffMember)
    (scienceBaseScore : ℚ) (students : List StudentData) : List ProcessedStudent :=
  let processed := students.map (processOneStudent coreSubjects stats
    facilitatorMap subjectList gradingRemarks staffList scienceBaseScore)
  let sorted := processed.mergeSort rankLE
  sorted.enum.map (fun p => { p.2 with rank := p.1 + 1 })

/-- A per-(facilitator, subject) aggregate (`FacilitatorStats`); the grade
counts are a total function on the nine bands, all pre-seeded at 0. -/
structure FacilitatorStats where
  facilitatorName : String
  subject : String
  studentCount : ℕ
  gradeCounts : Grade → ℕ
  totalGradeValue : ℕ
  performancePercentage : ℚ
  averageGradeValue : ℚ
  performanceGrade : String

/-- The grouping key `` `${sub.facilitator}||${sub.subject}` `` of
`calculateFacilitatorStats` (`src/utils.ts` line 229). -/
def facilitatorKey (sub : ComputedSubject) : String :=
  sub.facilitator ++ "||" ++ sub.subject

/-- The zero-initialized entry created for a fresh key
(`src/utils.ts` lines 230-241). -/
def initFacilitatorStats (sub : ComputedSubject) : FacilitatorStats :=
  { facilitatorName := sub.facilitator
    subject := sub.subject
    studentCount := 0
    gradeCounts := fun _ => 0
    totalGradeValue := 0
    performancePercentage := 0
    averageGradeValue := 0
    performanceGrade := "" }

/-- The accumulation step of `calculateFacilitatorStats`
(`src/utils.ts` lines 243-246). -/
def bumpFacilitatorStats (entry : FacilitatorStats)
    (sub : ComputedSubject) : FacilitatorStats :=
  { entry with
    studentCount := entry.studentCount + 1
    gradeCounts := fun g =>
      if g = sub.grade then entry.gradeCounts g + 1 else entry.gradeCounts g
    totalGradeValue := entry.totalGradeValue + sub.gradeValue }

/-- One step of the grouping pass over `statsMap`, modelled as an
insertion-ordered association list (JS object string keys preserve
insertion order, and `Object.values` reads them back in that order). -/
def updateStatsMap : List (String × FacilitatorStats) → ComputedSubject →
    List (String × FacilitatorStats)
  | [], sub => [(facilitatorKey sub, bumpFacilitatorStats (initFacilitatorStats sub) sub)]
  | (k, entry) :: rest, sub =>
      if k = facilitatorKey sub then (k, bumpFacilitatorStats entry sub) :: rest
      else (k, entry) :: updateStatsMap rest sub

/-- JS `parseFloat(x.toFixed(2))`: round to two decimal places, halves
toward the larger integer numerator. -/
def round2 (q : ℚ) : ℚ := ((jround (q * 100) : ℤ) : ℚ) / 100

/-- The finalization pass of `calculateFacilitatorStats`
(`src/utils.ts` lines 250-272). -/
def finalizeFacilitatorStats (stat : FacilitatorStats) : FacilitatorStats :=
  let avg : ℚ :=
    if stat.studentCount > 0 then (stat.totalGradeValue : ℚ) / (stat.studentCount : ℚ)
    else 0
  let totalExpectedValue : ℚ := (stat.studentCount : ℚ) * 9
  let percentage : ℚ :=
    if totalExpectedValue > 0 then (1 - (stat.totalGradeValue : ℚ) / totalExpectedValue) * 100
    else 0
  let perfGrade :=
    if percentage ≥ 80 then "A1"
    else if percentage ≥ 70 then "B2"
    else if percentage ≥ 60 then "B3"
    else if percentage ≥ 50 then "C4"
    else if percentage ≥ 45 then "C5"
    else if percentage ≥ 40 then "C6"
    else if percentage ≥ 35 then "D7"
    else if percentage ≥ 30 then "E8"
    else "F9"
  { stat with
    averageGradeValue := avg
    performancePercentage := round2 percentage
    performanceGrade := perfGrade }

/-- `calculateFacilitatorStats` (`src/utils.ts` lines 224-274): group every
computed subject by `(facilitator, subject)`, finalize each group, and sort
descending by performance percentage. -/
def calculateFacilitatorStats (processedStudents : List ProcessedStudent) :
    List FacilitatorStats :=
  let statsMap := ((processedStudents.map (·.subjects)).flatten).foldl updateStatsMap []
  (statsMap.map (fun p => finalizeFacilitatorStats p.2)).mergeSort
    (fun a b => decide (b.performancePercentage ≤ a.performancePercentage))

/-- The nine grade bands in display order. -/
def allGrades : List Grade :=
  [.A1, .B2, .B3, .C4, .C5, .C6, .D7, .E8, .F9]

/-- The sum of a grade-count map over all nine bands. -/
def gradeCountSum (f : Grade → ℕ) : ℕ := (allGrades.map f).sum

/-- The sort key realized by `subjLE`: lexicographically ascending
`gradeValue`, then ascending negated score (= descending score). -/
def subjKey (s : ComputedSubject) : ℕ ×ₗ ℚ := toLex (s.gradeValue, -s.score)

theorem subjLE_iff_key (a b : ComputedSubject) :
    subjLE a b = true ↔ subjKey a ≤ subjKey b := by
  unfold subjLE subjKey
  rw [Prod.Lex.le_iff]
  by_cases h : a.gradeValue = b.gradeValue <;> simp [h]

theorem subjLE_trans (a b c : ComputedSubject)
    (hab : subjLE a b) (hbc : subjLE b c) : subjLE a c :=
  (subjLE_iff_key a c).mpr
    (((subjLE_iff_key a b).mp hab).trans ((subjLE_iff_key b c).mp hbc))

theorem subjLE_total (a b : ComputedSubject) : subjLE a b || subjLE b a := by
  rw [Bool.or_eq_true, subjLE_iff_key, subjLE_iff_key]
  exact le_total _ _

theorem mergeSort_subjKey_map_eq (l₁ l₂ : List ComputedSubject)
    (hp : l₁.Perm l₂) :
    (l₁.mergeSort subjLE).map subjKey = (l₂.mergeSort subjLE).map subjKey := by
  have hperm : ((l₁.mergeSort subjLE).map subjKey).Perm
      ((l₂.mergeSort subjLE).map subjKey) :=
    (((l₁.mergeSort_perm subjLE).trans
      (hp.trans (l₂.mergeSort_perm subjLE).symm)).map subjKey)
  have hs₁ : List.Pairwise (fun x y => x ≤ y)
      ((l₁.mergeSort subjLE).map subjKey) :=
    List.Pairwise.map subjKey (fun a b hab => (subjLE_iff_key a b).mp hab)
      (List.sorted_mergeSort subjLE_trans subjLE_total l₁)
  have hs₂ : List.Pairwise (fun x y => x ≤ y)
      ((l₂.mergeSort subjLE).map subjKey) :=
    List.Pairwise.map subjKey (fun a b hab => (subjLE_iff_key a b).mp hab)
      (List.sorted_mergeSort subjLE_trans subjLE_total l₂)
  exact List.eq_of_perm_of_sorted hperm hs₁ hs₂

theorem mergeSort_gradeValue_map_eq (l₁ l₂ : List ComputedSubject)
    (hp : l₁.Perm l₂) :
    (l₁.mergeSort subjLE).map (·.gradeValue) =
      (l₂.mergeSort subjLE).map (·.gradeValue) := by
  have h1 : ∀ (l : List ComputedSubject),
      l.map (·.gradeValue) = (l.map subjKey).map (fun k => (ofLex k).1) := by
    intro l
    rw [List.map_map]
    rfl
  rw [h1, h1, mergeSort_subjKey_map_eq l₁ l₂ hp]

/-- The best-six aggregate (`src/utils.ts` lines 129-145) as a function of
the computed-subject list. -/
def bestSixAggregateOf (coreSubjects : List String)
    (computedSubjects : List ComputedSubject) : ℕ :=
  let cores := computedSubjects.filter (fun s => coreSubjects.contains s.subject)
  let electives := computedSubjects.filter (fun s => !coreSubjects.contains s.subject)
  let best4Cores := (cores.mergeSort subjLE).take 4
  let best2Electives := (electives.mergeSort subjLE).take 2
  (best4Cores.map (·.gradeValue)).sum + (best2Electives.map (·.gradeValue)).sum

theorem processOneStudent_bestSixAggregate (coreSubjects : List String)
    (stats : ClassStatistics) (facilitatorMap : String → Option String)
    (subjectList : List String) (gradingRemarks : String → Option String)
    (staffList : List StaffMember) (scienceBaseScore : ℚ)
    (student : StudentData) :
    (processOneStudent coreSubjects stats facilitatorMap subjectList
        gradingRemarks staffList scienceBaseScore student).bestSixAggregate =
      bestSixAggregateOf coreSubjects (subjectList.map
        (computeSubject stats facilitatorMap gradingRemarks staffList
          scienceBaseScore student)) := rfl

theorem bestSixAggregateOf_perm (coreSubjects : List String)
    (l₁ l₂ : List ComputedSubject) (hp : l₁.Perm l₂) :
    bestSixAggregateOf coreSubjects l₁ = bestSixAggregateOf coreSubjects l₂ := by
  unfold bestSixAggregateOf
  dsimp only
  rw [List.map_take, List.map_take, List.map_take, List.map_take,
    mergeSort_gradeValue_map_eq _ _ (hp.filter _),
    mergeSort_gradeValue_map_eq _ _ (hp.filter _)]

/-- C4: for a fixed student, statistics and settings, permuting the active
subject list never changes the best-six aggregate. -/
theorem processOneStudent_bestSix_perm_invariant (coreSubjects : List String)
    (stats : ClassStatistics) (facilitatorMap : String → Option String)
    (gradingRemarks : String → Option String) (staffList : List StaffMember)
    (scienceBaseScore : ℚ) (student : StudentData)
    (subjectList₁ subjectList₂ : List String)
    (hp : subjectList₁.Perm subjectList₂) :
    (processOneStudent coreSubjects stats facilitatorMap subjectList₁
        gradingRemarks staffList scienceBaseScore student).bestSixAggregate =
      (processOneStudent coreSubjects stats facilitatorMap subjectList₂
        gradingRemarks staffList scienceBaseScore student).bestSixAggregate := by
  rw [processOneStudent_bestSixAggregate, processOneStudent_bestSixAggregate]
  exact bestSixAggregateOf_perm _ _ _
    (hp.map (computeSubject stats facilitatorMap gradingRemarks staffList
      scienceBaseScore student))

theorem rankLE_iff (a b : ProcessedStudent) :
    rankLE a b = true ↔ (a.bestSixAggregate < b.bestSixAggregate ∨
      (a.bestSixAggregate = b.bestSixAggregate ∧ b.totalScore ≤ a.totalScore)) := by
  unfold rankLE
  by_cases h : a.bestSixAggregate = b.bestSixAggregate <;> simp [h]

theorem rankLE_trans (a b c : ProcessedStudent)
    (hab : rankLE a b) (hbc : rankLE b c) : rankLE a c := by
  rw [rankLE_iff] at hab hbc ⊢
  rcases hab with h1 | ⟨h1, t1⟩ <;> rcases hbc with h2 | ⟨h2, t2⟩
  · exact Or.inl (h1.trans h2)
  · exact Or.inl (h2 ▸ h1)
  · exact Or.inl (h1 ▸ h2)
  · exact Or.inr ⟨h1.trans h2, t2.trans t1⟩

theorem rankLE_total (a b : ProcessedStudent) : rankLE a b || rankLE b a := by
  rw [Bool.or_eq_true, rankLE_iff, rankLE_iff]
  rcases lt_trichotomy a.bestSixAggregate b.bestSixAggregate with h | h | h
  · exact Or.inl (Or.inl h)
  · rcases le_total b.totalScore a.totalScore with ht | ht
    · exact Or.inl (Or.inr ⟨h, ht⟩)
    · exact Or.inr (Or.inr ⟨h.symm, ht⟩)
  · exact Or.inr (Or.inl h)

/-- C3: the list returned by `processStudentData` is sorted so that each
adjacent pair has non-decreasing `bestSixAggregate` with ties carrying
non-increasing `totalScore`, the `rank` fields are exactly `1..N` in list
order, and the order is the stable one: sorting the processed students
tagged with their input position (ties broken by position) yields the same
list. -/
theorem processStudentData_ranking (coreSubjects : List String)
    (stats : ClassStatistics) (facilitatorMap : String → Option String)
    (subjectList : List String) (gradingRemarks : String → Option String)
    (staffList : List StaffMember) (scienceBaseScore : ℚ)
    (students : List StudentData) :
    List.Chain' (fun a b => a.bestSixAggregate ≤ b.bestSixAggregate ∧
        (a.bestSixAggregate = b.bestSixAggregate → b.totalScore ≤ a.totalScore))
      (processStudentData coreSubjects stats facilitatorMap subjectList
        gradingRemarks staffList scienceBaseScore students) ∧
    (processStudentData coreSubjects stats facilitatorMap subjectList
        gradingRemarks staffList scienceBaseScore students).map (·.rank) =
      List.range' 1 (processStudentData coreSubjects stats facilitatorMap
        subjectList gradingRemarks staffList scienceBaseScore students).length ∧
    (((students.map (processOneStudent coreSubjects stats facilitatorMap
        subjectList gradingRemarks staffList scienceBaseScore)).enum).mergeSort
          (List.enumLE rankLE)).map (·.2) =
      (processStudentData coreSubjects stats facilitatorMap subjectList
        gradingRemarks staffList scienceBaseScore students).map
        (fun p => { p with rank := 0 }) := by
  have hz : ∀ q ∈ (students.map (processOneStudent coreSubjects stats
      facilitatorMap subjectList gradingRemarks staffList
      scienceBaseScore)).mergeSort rankLE, q.rank = 0 := by
    intro q hq
    rw [List.mem_mergeSort] at hq
    obtain ⟨s, _, rfl⟩ := List.mem_map.mp hq
    rfl
  have hout : processStudentData coreSubjects stats facilitatorMap subjectList
      gradingRemarks staffList scienceBaseScore students =
      ((students.map (processOneStudent coreSubjects stats facilitatorMap
        subjectList gradingRemarks staffList scienceBaseScore)).mergeSort
          rankLE).enum.map (fun p => { p.2 with rank := p.1 + 1 }) := rfl
  rw [hout]
  refine ⟨?_, ?_, ?_⟩
  · -- adjacent sortedness
    have hsorted := List.sorted_mergeSort rankLE_trans rankLE_total
      (students.map (processOneStudent coreSubjects stats facilitatorMap
        subjectList gradingRemarks staffList scienceBaseScore))
    have hrel : ∀ a b : ProcessedStudent, rankLE a b = true →
        a.bestSixAggregate ≤ b.bestSixAggregate ∧
          (a.bestSixAggregate = b.bestSixAggregate → b.totalScore ≤ a.totalScore) := by
      intro a b hab
      rcases (rankLE_iff a b).mp hab with h | ⟨h, ht⟩
      · exact ⟨Nat.le_of_lt h, fun heq => absurd heq (by omega)⟩
      · exact ⟨Nat.le_of_eq h, fun _ => ht⟩
    have hchainS : List.Chain' (fun a b => a.bestSixAggregate ≤ b.bestSixAggregate ∧
        (a.bestSixAggregate = b.bestSixAggregate → b.totalScore ≤ a.totalScore))
      ((students.map (processOneStudent coreSubjects stats facilitatorMap
        subjectList gradingRemarks staffList scienceBaseScore)).mergeSort rankLE) :=
      List.Pairwise.chain' (hsorted.imp (fun hab => hrel _ _ hab))
    rw [← List.enum_map_snd ((students.map (processOneStudent coreSubjects stats
      facilitatorMap subjectList gradingRemarks staffList
      scienceBaseScore)).mergeSort rankLE), List.chain'_map] at hchainS
    rw [List.chain'_map]
    exact hchainS
  · -- ranks are 1..N
    rw [List.map_map, List.length_map, List.enum_length,
      List.range'_eq_map_range, ← List.enum_map_fst ((students.map
        (processOneStudent coreSubjects stats facilitatorMap subjectList
          gradingRemarks staffList scienceBaseScore)).mergeSort rankLE),
      List.map_map]
    apply List.map_congr_left
    intro x _
    show x.1 + 1 = 1 + x.1
    omega
  · -- stability
    have hstab : (((students.map (processOneStudent coreSubjects stats
        facilitatorMap subjectList gradingRemarks staffList
        scienceBaseScore)).enum).mergeSort (List.enumLE rankLE)).map (·.2) =
        (students.map (processOneStudent coreSubjects stats facilitatorMap
          subjectList gradingRemarks staffList scienceBaseScore)).mergeSort
          rankLE := List.mergeSort_enum
    rw [hstab, List.map_map]
    have h1 : ∀ x ∈ ((students.map (processOneStudent coreSubjects stats
        facilitatorMap subjectList gradingRemarks staffList
        scienceBaseScore)).mergeSort rankLE).enum,
        ((fun (p : ProcessedStudent) => ({ p with rank := 0 } : ProcessedStudent)) ∘
          (fun p : ℕ × ProcessedStudent =>
            ({ p.2 with rank := p.1 + 1 } : ProcessedStudent))) x = Prod.snd x := by
      intro x hx
      have hx2 : x.2 ∈ (students.map (processOneStudent coreSubjects stats
          facilitatorMap subjectList gradingRemarks staffList
          scienceBaseScore)).mergeSort rankLE := by
        have := List.mem_map_of_mem Prod.snd hx
        rwa [List.enum_map_snd] at this
      have hr := hz _ hx2
      show ({ x.2 with rank := 0 } : ProcessedStudent) = x.2
      rw [← hr]
    rw [List.map_congr_left h1, List.enum_map_snd]

theorem gradeCountSum_bump (entry : FacilitatorStats) (sub : ComputedSubject) :
    gradeCountSum (bumpFacilitatorStats entry sub).gradeCounts =
      gradeCountSum entry.gradeCounts + 1 := by
  cases h : sub.grade <;>
    simp [gradeCountSum, allGrades, bumpFacilitatorStats, h] <;> omega

theorem updateStatsMap_count_sum (m : List (String × FacilitatorStats))
    (sub : ComputedSubject)
    (hm : ∀ e ∈ m, gradeCountSum e.2.gradeCounts = e.2.studentCount) :
    ∀ e ∈ updateStatsMap m sub,
      gradeCountSum e.2.gradeCounts = e.2.studentCount := by
  induction m with
  | nil =>
    intro e he
    simp only [updateStatsMap, List.mem_singleton] at he
    subst he
    rw [gradeCountSum_bump]
    simp [gradeCountSum, allGrades, initFacilitatorStats, bumpFacilitatorStats]
  | cons head tail ih =>
    obtain ⟨k, entry⟩ := head
    intro e he
    simp only [updateStatsMap] at he
    split at he
    · rcases List.mem_cons.mp he with rfl | htail
      · rw [gradeCountSum_bump]
        simp only [bumpFacilitatorStats]
        rw [hm (k, entry) (List.mem_cons_self _ _)]
      · exact hm e (List.mem_cons_of_mem _ htail)
    · rcases List.mem_cons.mp he with rfl | htail
      · exact hm (k, entry) (List.mem_cons_self _ _)
      · exact ih (fun x hx => hm x (List.mem_cons_of_mem _ hx)) _ htail

theorem foldl_updateStatsMap_count_sum (subs : List ComputedSubject)
    (m : List (String × FacilitatorStats))
    (hm : ∀ e ∈ m, gradeCountSum e.2.gradeCounts = e.2.studentCount) :
    ∀ e ∈ subs.foldl updateStatsMap m,
      gradeCountSum e.2.gradeCounts = e.2.studentCount := by
  induction subs generalizing m with
  | nil => exact hm
  | cons s rest ih => exact ih _ (updateStatsMap_count_sum m s hm)

/-- C6: in every record produced by `calculateFacilitatorStats`, the grade
counts over the nine bands sum to the group's student count. -/
theorem calculateFacilitatorStats_gradeCounts_sum
    (processedStudents : List ProcessedStudent) :
    ∀ stat ∈ calculateFacilitatorStats processedStudents,
      gradeCountSum stat.gradeCounts = stat.studentCount := by
  intro stat hstat
  simp only [calculateFacilitatorStats, List.mem_mergeSort, List.mem_map] at hstat
  obtain ⟨p, hp, rfl⟩ := hstat
  have hinv := foldl_updateStatsMap_count_sum
    ((processedStudents.map (·.subjects)).flatten) [] (by simp) p hp
  simpa [finalizeFacilitatorStats] using hinv

theorem updateStatsMap_count_le_total (m : List (String × FacilitatorStats))
    (sub : ComputedSubject) (hsub : 1 ≤ sub.gradeValue)
    (hm : ∀ e ∈ m, e.2.studentCount ≤ e.2.totalGradeValue) :
    ∀ e ∈ updateStatsMap m sub,
      e.2.studentCount ≤ e.2.totalGradeValue := by
  induction m with
  | nil =>
    intro e he
    simp only [updateStatsMap, List.mem_singleton] at he
    subst he
    simp only [initFacilitatorStats, bumpFacilitatorStats]
    omega
  | cons head tail ih =>
    obtain ⟨k, entry⟩ := head
    intro e he
    simp only [updateStatsMap] at he
    split at he
    · rcases List.mem_cons.mp he with rfl | htail
      · have hk := hm (k, entry) (List.mem_cons_self _ _)
        simp only [bumpFacilitatorStats]
        simp only at hk
        omega
      · exact hm _ (List.mem_cons_of_mem _ htail)
    · rcases List.mem_cons.mp he with rfl | htail
      · exact hm (k, entry) (List.mem_cons_self _ _)
      · exact ih (fun x hx => hm x (List.mem_cons_of_mem _ hx)) _ htail

theorem foldl_updateStatsMap_count_le_total (subs : List ComputedSubject)
    (hsubs : ∀ sub ∈ subs, 1 ≤ sub.gradeValue)
    (m : List (String × FacilitatorStats))
    (hm : ∀ e ∈ m, e.2.studentCount ≤ e.2.totalGradeValue) :
    ∀ e ∈ subs.foldl updateStatsMap m,
      e.2.studentCount ≤ e.2.totalGradeValue := by
  induction subs generalizing m with
  | nil => exact hm
  | cons s rest ih =>
    exact ih (fun x hx => hsubs x (List.mem_cons_of_mem _ hx)) _
      (updateStatsMap_count_le_total m s (hsubs s (List.mem_cons_self _ _)) hm)

theorem round2_le_bound (q : ℚ) (h : q ≤ 800 / 9) : round2 q ≤ 8889 / 100 := by
  unfold round2 jround
  have h1 : ⌊q * 100 + 1 / 2⌋ ≤ (8889 : ℤ) := by
    rw [Int.floor_le_iff]
    push_cast
    linarith
  calc ((⌊q * 100 + 1 / 2⌋ : ℤ) : ℚ) / 100 ≤ ((8889 : ℤ) : ℚ) / 100 := by
        apply div_le_div_of_nonneg_right ?_ (by norm_num)
        exact_mod_cast h1
    _ = 8889 / 100 := by norm_num

/-- C7: in every record produced by `calculateFacilitatorStats` from
subjects whose grade values are at least 1, the performance percentage is
the code's rounded formula for non-empty groups and 0 for empty ones, it
never exceeds 100, and it equals 100 only if the grade-value total equals
the student count. -/
theorem calculateFacilitatorStats_percentage
    (processedStudents : List ProcessedStudent)
    (h : ∀ p ∈ processedStudents, ∀ sub ∈ p.subjects, 1 ≤ sub.gradeValue) :
    ∀ stat ∈ calculateFacilitatorStats processedStudents,
      (0 < stat.studentCount →
        stat.performancePercentage =
          round2 ((1 - (stat.totalGradeValue : ℚ) /
            ((stat.studentCount : ℚ) * 9)) * 100)) ∧
      (stat.studentCount = 0 → stat.performancePercentage = 0) ∧
      stat.performancePercentage ≤ 100 ∧
      (stat.performancePercentage = 100 →
        stat.totalGradeValue = stat.studentCount) := by
  intro stat hstat
  simp only [calculateFacilitatorStats, List.mem_mergeSort, List.mem_map] at hstat
  obtain ⟨p, hp, rfl⟩ := hstat
  have hsubs : ∀ sub ∈ (processedStudents.map (·.subjects)).flatten,
      1 ≤ sub.gradeValue := by
    intro sub hsub
    rw [List.mem_flatten] at hsub
    obtain ⟨l, hl, hsl⟩ := hsub
    rw [List.mem_map] at hl
    obtain ⟨q, hq, rfl⟩ := hl
    exact h q hq sub hsl
  have hle := foldl_updateStatsMap_count_le_total
    ((processedStudents.map (·.subjects)).flatten) hsubs [] (by simp) p hp
  simp only [finalizeFacilitatorStats]
  by_cases hn : p.2.studentCount = 0
  · have hzero : ¬ ((p.2.studentCount : ℚ) * 9 > 0) := by
      rw [hn]; norm_num
    rw [if_neg hzero]
    have h0 : round2 0 = 0 := by norm_num [round2, jround]
    refine ⟨fun hc => absurd hn (by omega), fun _ => h0, ?_, ?_⟩
    · rw [h0]; norm_num
    · rw [h0]; intro hc; exact absurd hc (by norm_num)
  · have hnpos : 0 < p.2.studentCount := Nat.pos_of_ne_zero hn
    have hn9 : (0 : ℚ) < (p.2.studentCount : ℚ) * 9 := by
      have : (0 : ℚ) < (p.2.studentCount : ℚ) := by exact_mod_cast hnpos
      linarith
    rw [if_pos hn9]
    have hfrac : (1 : ℚ) / 9 ≤
        (p.2.totalGradeValue : ℚ) / ((p.2.studentCount : ℚ) * 9) := by
      have hcast : (p.2.studentCount : ℚ) ≤ (p.2.totalGradeValue : ℚ) := by
        exact_mod_cast hle
      have heq : (p.2.studentCount : ℚ) / ((p.2.studentCount : ℚ) * 9) = 1 / 9 := by
        have hne : (p.2.studentCount : ℚ) ≠ 0 := by positivity
        field_simp
      calc (1 : ℚ) / 9 = (p.2.studentCount : ℚ) / ((p.2.studentCount : ℚ) * 9) :=
            heq.symm
        _ ≤ (p.2.totalGradeValue : ℚ) / ((p.2.studentCount : ℚ) * 9) :=
            (div_le_div_iff_of_pos_right hn9).mpr hcast
    have hraw : (1 - (p.2.totalGradeValue : ℚ) /
        ((p.2.studentCount : ℚ) * 9)) * 100 ≤ 800 / 9 := by linarith
    have hr2 := round2_le_bound _ hraw
    refine ⟨fun _ => rfl, fun hc => absurd hc hn, by linarith, fun hc => ?_⟩
    exfalso
    rw [hc] at hr2
    norm_num at hr2

/-- A concrete computed subject used only to witness the facilitator-stats
theorems. -/
def sampleComputedSubject : ComputedSubject :=
  { subject := "Math", score := 50, grade := .C4, gradeValue := 4,
    remark := "Pass. Needs more dedication to studies.",
    facilitator := "TBA", zScore := 0 }

/-- A concrete processed student used only to witness the facilitator-stats
theorems. -/
def sampleProcessedStudent : ProcessedStudent :=
  { id := 1, name := "A", subjects := [sampleComputedSubject],
    totalScore := 50, bestSixAggregate := 4, bestCoreSubjects := [],
    bestElectiveSubjects := [], overallRemark := "", recommendation := "",
    weaknessAnalysis := "", category := "Distinction", rank := 1,
    attendance := "0", age := "", promotedTo := "", conduct := "",
    interest := "", skills := "" }

theorem sampleFacStats_ne_nil :
    calculateFacilitatorStats [sampleProcessedStudent] ≠ [] := by
  have hlen : (calculateFacilitatorStats [sampleProcessedStudent]).length = 1 := by
    simp [calculateFacilitatorStats, updateStatsMap, sampleProcessedStudent]
  intro hnil
  rw [hnil] at hlen
  simp at hlen

/-- Witness for C6 on a one-student, one-subject cohort. -/
theorem calculateFacilitatorStats_gradeCounts_sum_witness :
    gradeCountSum ((calculateFacilitatorStats
        [sampleProcessedStudent]).head sampleFacStats_ne_nil).gradeCounts =
      ((calculateFacilitatorStats
        [sampleProcessedStudent]).head sampleFacStats_ne_nil).studentCount :=
  calculateFacilitatorStats_gradeCounts_sum [sampleProcessedStudent] _
    (List.head_mem sampleFacStats_ne_nil)

/-- Witness for C7 on a one-student, one-subject cohort. -/
theorem calculateFacilitatorStats_percentage_witness :
    (∀ p ∈ [sampleProcessedStudent], ∀ sub ∈ p.subjects, 1 ≤ sub.gradeValue) ∧
      ((0 < ((calculateFacilitatorStats
          [sampleProcessedStudent]).head sampleFacStats_ne_nil).studentCount →
        ((calculateFacilitatorStats
          [sampleProcessedStudent]).head sampleFacStats_ne_nil).performancePercentage =
          round2 ((1 - (((calculateFacilitatorStats
            [sampleProcessedStudent]).head sampleFacStats_ne_nil).totalGradeValue : ℚ) /
            ((((calculateFacilitatorStats
            [sampleProcessedStudent]).head sampleFacStats_ne_nil).studentCount : ℚ) * 9)) * 100)) ∧
      (((calculateFacilitatorStats
          [sampleProcessedStudent]).head sampleFacStats_ne_nil).studentCount = 0 →
        ((calculateFacilitatorStats
          [sampleProcessedStudent]).head sampleFacStats_ne_nil).performancePercentage = 0) ∧
      ((calculateFacilitatorStats
          [sampleProcessedStudent]).head sampleFacStats_ne_nil).performancePercentage ≤ 100 ∧
      (((calculateFacilitatorStats
          [sampleProcessedStudent]).head sampleFacStats_ne_nil).performancePercentage = 100 →
        ((calculateFacilitatorStats
          [sampleProcessedStudent]).head sampleFacStats_ne_nil).totalGradeValue =
          ((calculateFacilitatorStats
          [sampleProcessedStudent]).head sampleFacStats_ne_nil).studentCount)) :=
  ⟨by simp [sampleProcessedStudent, sampleComputedSubject],
    calculateFacilitatorStats_percentage [sampleProcessedStudent]
      (by simp [sampleProcessedStudent, sampleComputedSubject]) _
      (List.head_mem sampleFacStats_ne_nil)⟩

theorem processStudentData_mem (coreSubjects : List String)
    (stats : ClassStatistics) (facilitatorMap : String → Option String)
    (subjectList : List String) (gradingRemarks : String → Option String)
    (staffList : List StaffMember) (scienceBaseScore : ℚ)
    (students : List StudentData) (p : ProcessedStudent)
    (hp : p ∈ processStudentData coreSubjects stats facilitatorMap subjectList
      gradingRemarks staffList scienceBaseScore students) :
    ∃ s ∈ students, ∃ r : ℕ,
      p = { processOneStudent coreSubjects stats facilitatorMap subjectList
        gradingRemarks staffList scienceBaseScore s with rank := r } := by
  obtain ⟨x, hx, rfl⟩ := List.mem_map.mp hp
  have hx2 : x.2 ∈ (students.map (processOneStudent coreSubjects stats
      facilitatorMap subjectList gradingRemarks staffList
      scienceBaseScore)).mergeSort rankLE := by
    have := List.mem_map_of_mem Prod.snd hx
    rwa [List.enum_map_snd] at this
  rw [List.mem_mergeSort] at hx2
  obtain ⟨s, hs, hs2⟩ := List.mem_map.mp hx2
  exact ⟨s, hs, x.1 + 1, by rw [hs2]⟩

theorem categoryOf_ne_average (n : ℕ) : categoryOf n ≠ "Average" := by
  unfold categoryOf
  split_ifs <;> decide

/-- C10: every returned student's `category` is exactly the band of its
`bestSixAggregate` — `Distinction`/`Merit`/`Pass`/`Fail` — and the initial
`"Average"` placeholder is never observable. -/
theorem processStudentData_category (coreSubjects : List String)
    (stats : ClassStatistics) (facilitatorMap : String → Option String)
    (subjectList : List String) (gradingRemarks : String → Option String)
    (staffList : List StaffMember) (scienceBaseScore : ℚ)
    (students : List StudentData) :
    ∀ p ∈ processStudentData coreSubjects stats facilitatorMap subjectList
      gradingRemarks staffList scienceBaseScore students,
      p.category = (if p.bestSixAggregate ≤ 10 then "Distinction"
        else if p.bestSixAggregate ≤ 20 then "Merit"
        else if p.bestSixAggregate ≤ 36 then "Pass" else "Fail") ∧
      p.category ≠ "Average" := by
  intro p hp
  obtain ⟨s, _, r, rfl⟩ := processStudentData_mem coreSubjects stats
    facilitatorMap subjectList gradingRemarks staffList scienceBaseScore
    students p hp
  exact ⟨rfl, categoryOf_ne_average _⟩

/-- Evaluation helper: the pipeline on a one-student cohort returns exactly
that student's processed record at rank 1. -/
theorem processStudentData_singleton (coreSubjects : List String)
    (stats : ClassStatistics) (facilitatorMap : String → Option String)
    (subjectList : List String) (gradingRemarks : String → Option String)
    (staffList : List StaffMember) (scienceBaseScore : ℚ) (s : StudentData) :
    processStudentData coreSubjects stats facilitatorMap subjectList
        gradingRemarks staffList scienceBaseScore [s] =
      [{ processOneStudent coreSubjects stats facilitatorMap subjectList
        gradingRemarks staffList scienceBaseScore s with rank := 1 }] := by
  unfold processStudentData
  dsimp only
  rw [List.map_singleton, List.mergeSort_singleton]
  rfl

theorem mem_processStudentData_of_mem (coreSubjects : List String)
    (stats : ClassStatistics) (facilitatorMap : String → Option String)
    (subjectList : List String) (gradingRemarks : String → Option String)
    (staffList : List StaffMember) (scienceBaseScore : ℚ)
    (students : List StudentData) (s : StudentData) (hs : s ∈ students) :
    ∃ r : ℕ,
      { processOneStudent coreSubjects stats facilitatorMap subjectList
          gradingRemarks staffList scienceBaseScore s with rank := r } ∈
        processStudentData coreSubjects stats facilitatorMap subjectList
          gradingRemarks staffList scienceBaseScore students := by
  have h1 : processOneStudent coreSubjects stats facilitatorMap subjectList
      gradingRemarks staffList scienceBaseScore s ∈
      students.map (processOneStudent coreSubjects stats facilitatorMap
        subjectList gradingRemarks staffList scienceBaseScore) :=
    List.mem_map_of_mem _ hs
  have h2 : processOneStudent coreSubjects stats facilitatorMap subjectList
      gradingRemarks staffList scienceBaseScore s ∈
      (students.map (processOneStudent coreSubjects stats facilitatorMap
        subjectList gradingRemarks staffList scienceBaseScore)).mergeSort
        rankLE := List.mem_mergeSort.mpr h1
  obtain ⟨i, hi⟩ := List.mem_iff_getElem?.mp h2
  have h3 : (i, processOneStudent coreSubjects stats facilitatorMap subjectList
      gradingRemarks staffList scienceBaseScore s) ∈
      ((students.map (processOneStudent coreSubjects stats facilitatorMap
        subjectList gradingRemarks staffList scienceBaseScore)).mergeSort
        rankLE).enum := List.mk_mem_enum_iff_getElem?.mpr hi
  exact ⟨i + 1, List.mem_map_of_mem _ h3⟩

/-- C9 (amended): for every input student, the corresponding returned
record copies `age`, `promotedTo`, `conduct`, `interest` and `skills`
verbatim, while `attendance` is copied through the JS `|| "0"` default
(empty or missing becomes `"0"`). -/
theorem processStudentData_passthrough (coreSubjects : List String)
    (stats : ClassStatistics) (facilitatorMap : String → Option String)
    (subjectList : List String) (gradingRemarks : String → Option String)
    (staffList : List StaffMember) (scienceBaseScore : ℚ)
    (students : List StudentData) (s : StudentData) (hs : s ∈ students) :
    ∃ p ∈ processStudentData coreSubjects stats facilitatorMap subjectList
        gradingRemarks staffList scienceBaseScore students,
      (∃ r : ℕ, p = { processOneStudent coreSubjects stats facilitatorMap
        subjectList gradingRemarks staffList scienceBaseScore s with rank := r }) ∧
      p.age = s.age ∧ p.promotedTo = s.promotedTo ∧ p.conduct = s.conduct ∧
      p.interest = s.interest ∧ p.skills = s.skills ∧
      p.attendance = jsStr s.attendance "0" := by
  obtain ⟨r, hr⟩ := mem_processStudentData_of_mem coreSubjects stats
    facilitatorMap subjectList gradingRemarks staffList scienceBaseScore
    students s hs
  exact ⟨_, hr, ⟨r, rfl⟩, rfl, rfl, rfl, rfl, rfl, rfl⟩

/-- A minimal concrete input record used by the witnesses. -/
def sampleStudentData : StudentData :=
  { id := 1, name := "Ama", scores := fun _ => none,
    scoreDetails := fun _ => none, subjectRemarks := none,
    finalRemark := none, overallRemark := none, recommendation := none,
    attendance := none, age := "12", promotedTo := "B7", conduct := "Good",
    interest := "Reading", skills := "Art" }

/-- Concrete class statistics (all zero) used by the witnesses. -/
def sampleStats : ClassStatistics :=
  { subjectMeans := fun _ => 0, subjectStdDevs := fun _ => 0 }

/-- Witness for C4: swapping a two-subject list leaves the aggregate
unchanged. -/
theorem processOneStudent_bestSix_perm_invariant_witness :
    (["Math", "English"] : List String).Perm ["English", "Math"] ∧
      (processOneStudent ["Math"] sampleStats (fun _ => none)
        ["Math", "English"] (fun _ => none) [] 100
        sampleStudentData).bestSixAggregate =
      (processOneStudent ["Math"] sampleStats (fun _ => none)
        ["English", "Math"] (fun _ => none) [] 100
        sampleStudentData).bestSixAggregate :=
  ⟨by decide,
    processOneStudent_bestSix_perm_invariant ["Math"] sampleStats
      (fun _ => none) (fun _ => none) [] 100 sampleStudentData
      ["Math", "English"] ["English", "Math"] (by decide)⟩

/-- Witness for C8 at score₁ = 2, score₂ = 0, mean = 0, stdDev = 1. -/
theorem getGradeFromZScore_value_antitone_witness :
    (0 : ℚ) < 1 ∧ ((0 : ℚ) - 0) / 1 ≤ ((2 : ℚ) - 0) / 1 ∧
      (getGradeFromZScore 2 0 1 (fun _ => none)).value ≤
        (getGradeFromZScore 0 0 1 (fun _ => none)).value :=
  ⟨by norm_num, by norm_num,
    getGradeFromZScore_value_antitone 2 0 0 1 (fun _ => none)
      (by norm_num) (by norm_num)⟩

/-- A student whose attendance field is present but empty. -/
def emptyAttendanceStudent : StudentData :=
  { sampleStudentData with attendance := some "" }

/-- C9 counterexample: an empty attendance string is not copied verbatim —
the returned record holds `"0"`. -/
theorem processStudentData_attendance_counterexample :
    emptyAttendanceStudent.attendance = some "" ∧
      (processStudentData ["Math"] sampleStats (fun _ => none) ["Math"]
        (fun _ => none) [] 100 [emptyAttendanceStudent]).map (·.attendance) =
        ["0"] := by
  refine ⟨rfl, ?_⟩
  rw [processStudentData_singleton]
  rfl

/-- Witness for the amended C9 on a one-student cohort. -/
theorem processStudentData_passthrough_witness :
    (emptyAttendanceStudent ∈ [emptyAttendanceStudent]) ∧
      ∃ p ∈ processStudentData ["Math"] sampleStats (fun _ => none) ["Math"]
          (fun _ => none) [] 100 [emptyAttendanceStudent],
        (∃ r : ℕ, p = { processOneStudent ["Math"] sampleStats (fun _ => none)
          ["Math"] (fun _ => none) [] 100 emptyAttendanceStudent with rank := r }) ∧
        p.age = emptyAttendanceStudent.age ∧
        p.promotedTo = emptyAttendanceStudent.promotedTo ∧
        p.conduct = emptyAttendanceStudent.conduct ∧
        p.interest = emptyAttendanceStudent.interest ∧
        p.skills = emptyAttendanceStudent.skills ∧
        p.attendance = jsStr emptyAttendanceStudent.attendance "0" :=
  ⟨List.mem_singleton.mpr rfl,
    processStudentData_passthrough ["Math"] sampleStats (fun _ => none)
      ["Math"] (fun _ => none) [] 100 [emptyAttendanceStudent]
      emptyAttendanceStudent (List.mem_singleton.mpr rfl)⟩

/-- Witness for C10 on a one-student cohort. -/
theorem processStudentData_category_witness :
    ({ processOneStudent ["Math"] sampleStats (fun _ => none) ["Math"]
        (fun _ => none) [] 100 sampleStudentData with rank := 1 } ∈
      processStudentData ["Math"] sampleStats (fun _ => none) ["Math"]
        (fun _ => none) [] 100 [sampleStudentData]) ∧
      (({ processOneStudent ["Math"] sampleStats (fun _ => none) ["Math"]
          (fun _ => none) [] 100 sampleStudentData with
            rank := 1 } : ProcessedStudent).category =
        (if ({ processOneStudent ["Math"] sampleStats (fun _ => none) ["Math"]
            (fun _ => none) [] 100 sampleStudentData with
              rank := 1 } : ProcessedStudent).bestSixAggregate ≤ 10 then
          "Distinction"
        else if ({ processOneStudent ["Math"] sampleStats (fun _ => none)
            ["Math"] (fun _ => none) [] 100 sampleStudentData with
              rank := 1 } : ProcessedStudent).bestSixAggregate ≤ 20 then "Merit"
        else if ({ processOneStudent ["Math"] sampleStats (fun _ => none)
            ["Math"] (fun _ => none) [] 100 sampleStudentData with
              rank := 1 } : ProcessedStudent).bestSixAggregate ≤ 36 then "Pass"
        else "Fail") ∧
      ({ processOneStudent ["Math"] sampleStats (fun _ => none) ["Math"]
          (fun _ => none) [] 100 sampleStudentData with
            rank := 1 } : ProcessedStudent).category ≠ "Average") :=
  have hmem : ({ processOneStudent ["Math"] sampleStats (fun _ => none)
      ["Math"] (fun _ => none) [] 100 sampleStudentData with rank := 1 } ∈
      processStudentData ["Math"] sampleStats (fun _ => none) ["Math"]
        (fun _ => none) [] 100 [sampleStudentData]) := by
    rw [processStudentData_singleton]
    exact List.mem_singleton.mpr rfl
  ⟨hmem,
    processStudentData_category ["Math"] sampleStats (fun _ => none) ["Math"]
      (fun _ => none) [] 100 [sampleStudentData] _ hmem⟩

theorem processOneStudent_of_finalRemark (coreSubjects : List String)
    (stats : ClassStatistics) (facilitatorMap : String → Option String)
    (subjectList : List String) (gradingRemarks : String → Option String)
    (staffList : List StaffMember) (scienceBaseScore : ℚ) (s : StudentData)
    (hcond : finalRemarkSet s = true) :
    (processOneStudent coreSubjects stats facilitatorMap subjectList
        gradingRemarks staffList scienceBaseScore s).overallRemark =
      s.finalRemark.getD "" ∧
    (processOneStudent coreSubjects stats facilitatorMap subjectList
        gradingRemarks staffList scienceBaseScore s).weaknessAnalysis =
      (if ((subjectList.map (computeSubject stats facilitatorMap
          gradingRemarks staffList scienceBaseScore s)).filter
          (fun c => decide (c.gradeValue ≥ 7))).length > 0 then
        weaknessNote (subjectList.map (computeSubject stats facilitatorMap
          gradingRemarks staffList scienceBaseScore s))
      else "") := by
  unfold processOneStudent
  dsimp only
  unfold remarkPair
  dsimp only
  rw [if_pos hcond]
  exact ⟨rfl, rfl⟩

/-- C5 (amended): for every input student with a non-empty trimmed
`finalRemark`, the returned record uses the `finalRemark` verbatim as the
entire `overallRemark` — the weakness note is not appended to it but
returned separately in `weaknessAnalysis`, as the note listing every
subject with `gradeValue >= 7` (empty when there is none). -/
theorem processStudentData_finalRemark (coreSubjects : List String)
    (stats : ClassStatistics) (facilitatorMap : String → Option String)
    (subjectList : List String) (gradingRemarks : String → Option String)
    (staffList : List StaffMember) (scienceBaseScore : ℚ)
    (students : List StudentData) (s : StudentData) (hs : s ∈ students)
    (hcond : finalRemarkSet s = true) :
    ∃ p ∈ processStudentData coreSubjects stats facilitatorMap subjectList
        gradingRemarks staffList scienceBaseScore students,
      p.overallRemark = s.finalRemark.getD "" ∧
      p.weaknessAnalysis =
        (if ((subjectList.map (computeSubject stats facilitatorMap
            gradingRemarks staffList scienceBaseScore s)).filter
            (fun c => decide (c.gradeValue ≥ 7))).length > 0 then
          weaknessNote (subjectList.map (computeSubject stats facilitatorMap
            gradingRemarks staffList scienceBaseScore s))
        else "") := by
  obtain ⟨r, hr⟩ := mem_processStudentData_of_mem coreSubjects stats
    facilitatorMap subjectList gradingRemarks staffList scienceBaseScore
    students s hs
  have h := processOneStudent_of_finalRemark coreSubjects stats facilitatorMap
    subjectList gradingRemarks staffList scienceBaseScore s hcond
  exact ⟨_, hr, h.1, h.2⟩

/-- Class statistics with mean 50 and standard deviation 10 everywhere. -/
def spreadStats : ClassStatistics :=
  { subjectMeans := fun _ => 50, subjectStdDevs := fun _ => 10 }

/-- A student scoring 0 everywhere with a manually entered final remark. -/
def remarkStudent : StudentData :=
  { sampleStudentData with
    scores := fun _ => some 0
    finalRemark := some "Good effort." }

/-- C5 counterexample: with a weak subject present (grade F9, value 9), the
returned `overallRemark` is the bare `finalRemark` with nothing appended;
the weakness note sits only in `weaknessAnalysis`. -/
theorem processStudentData_overallRemark_counterexample :
    (processStudentData ["Math"] spreadStats (fun _ => none) ["Math"]
        (fun _ => none) [] 100 [remarkStudent]).map (·.overallRemark) =
      ["Good effort."] ∧
    (processStudentData ["Math"] spreadStats (fun _ => none) ["Math"]
        (fun _ => none) [] 100 [remarkStudent]).map
        (fun p => (p.subjects.filter
          (fun c => decide (c.gradeValue ≥ 7))).map (·.subject)) = [["Math"]] ∧
    (processStudentData ["Math"] spreadStats (fun _ => none) ["Math"]
        (fun _ => none) [] 100 [remarkStudent]).map (·.weaknessAnalysis) =
      ["Needs urgent improvement in: Math."] ∧
    ("Good effort." : String) ≠
      "Good effort." ++ "Needs urgent improvement in: Math." := by
  rw [processStudentData_singleton]
  refine ⟨?_, ?_, ?_, by decide⟩ <;>
    simp only [List.map_singleton] <;>
    norm_num [processOneStudent, remarkPair, finalRemarkSet, computeSubject,
      getGradeFromZScore, processStudentScore, weaknessNote, jsNum, jsStr,
      remarkStudent, sampleStudentData, spreadStats, List.mergeSort_singleton,
      List.mergeSort_nil] <;>
    decide

/-- Witness for the amended C5 on a one-student cohort. -/
theorem processStudentData_finalRemark_witness :
    (remarkStudent ∈ [remarkStudent]) ∧ finalRemarkSet remarkStudent = true ∧
      ∃ p ∈ processStudentData ["Math"] spreadStats (fun _ => none) ["Math"]
          (fun _ => none) [] 100 [remarkStudent],
        p.overallRemark = remarkStudent.finalRemark.getD "" ∧
        p.weaknessAnalysis =
          (if ((["Math"].map (computeSubject spreadStats (fun _ => none)
              (fun _ => none) [] 100 remarkStudent)).filter
              (fun c => decide (c.gradeValue ≥ 7))).length > 0 then
            weaknessNote (["Math"].map (computeSubject spreadStats
              (fun _ => none) (fun _ => none) [] 100 remarkStudent))
          else "") :=
  ⟨List.mem_singleton.mpr rfl, by decide,
    processStudentData_finalRemark ["Math"] spreadStats (fun _ => none)
      ["Math"] (fun _ => none) [] 100 [remarkStudent] remarkStudent
      (List.mem_singleton.mpr rfl) (by decide)⟩

end SMAP
